import Mathlib

/-! Shallow embedding of the reconciliation and ingestion core of the
Sports-Analytics-Hub scripts (src/server/python_scripts).

Conventions of the embedding:
* Python strings are modelled as `List Char` (`PyStr`); a Python value that
  may be `None` / pandas `NaN` is modelled as an `Option`.
* Python floats and Postgres `REAL` values are modelled as exact rationals
  (`ℚ`); `round` is Python's banker's rounding on rationals.
* The Postgres tables are modelled as lists of rows; `INSERT ... ON
  CONFLICT` statements become total functions on those lists.
* `int()` / `float()` are modelled on plain decimal numerals (no
  underscores, exponents, `inf` / `nan` words), the shapes the scraped
  sources emit.
-/

/-- Python strings, modelled as lists of characters. -/
abbrev PyStr := List Char

/-- Numeric value of a string of decimal digits, most significant first. -/
def digitsVal (s : PyStr) : Nat :=
  s.foldl (fun a c => 10 * a + (c.toNat - 48)) 0

/-- The list is nonempty and all its characters are decimal digits. -/
def allDigits (s : PyStr) : Bool :=
  !s.isEmpty && s.all Char.isDigit

/-- Python `str.strip` whitespace test (the whitespace the sources emit). -/
def isSpaceCh (c : Char) : Bool :=
  c == ' ' || c == '\t' || c == '\n' || c == '\r'

/-- Python `str.strip()`: drop whitespace from both ends. -/
def pyStrip (s : PyStr) : PyStr :=
  ((s.dropWhile isSpaceCh).reverse.dropWhile isSpaceCh).reverse

/-- Python `sep in s` membership test for a single character. -/
def containsChar (sep : Char) : PyStr → Bool
  | [] => false
  | c :: t => c == sep || containsChar sep t

/-- Python `s.split(sep)` for a single-character separator. -/
def splitOnChar (sep : Char) : PyStr → List PyStr
  | [] => [[]]
  | c :: rest =>
    let r := splitOnChar sep rest
    if c == sep then [] :: r
    else
      match r with
      | [] => [[c]]
      | h :: t => (c :: h) :: t

/-- Python `s.startswith(pre)` on character lists. -/
def listStartsWith : PyStr → PyStr → Bool
  | [], _ => true
  | _ :: _, [] => false
  | a :: ps, b :: ss => a == b && listStartsWith (ps) (ss)

/-- Python `needle in hay` substring test. -/
def containsSubstring (needle : PyStr) : PyStr → Bool
  | [] => needle.isEmpty
  | c :: t => listStartsWith needle (c :: t) || containsSubstring needle t

/-- Model of CPython `int(s)` on decimal integer literals: optional
surrounding whitespace, an optional sign, then decimal digits. -/
def pyIntParse (s : PyStr) : Option Int :=
  match pyStrip s with
  | [] => none
  | c :: ds =>
    if c = '-' then (if allDigits ds then some (-(digitsVal ds : Int)) else none)
    else if c = '+' then (if allDigits ds then some (digitsVal ds : Int) else none)
    else if allDigits (c :: ds) then some (digitsVal (c :: ds) : Int) else none

/-- Unsigned decimal numeral with optional fractional part: `ddd`, `ddd.ddd`,
`ddd.`, `.ddd`; at least one digit overall. -/
def pyFloatCore (t : PyStr) : Option ℚ :=
  match splitOnChar '.' t with
  | [ip] => if allDigits ip then some (digitsVal ip : ℚ) else none
  | [ip, fp] =>
    if ip.all Char.isDigit && fp.all Char.isDigit && !(ip.isEmpty && fp.isEmpty) then
      some ((digitsVal ip : ℚ) + (digitsVal fp : ℚ) / (10 : ℚ) ^ fp.length)
    else none
  | _ => none

/-- Model of CPython `float(s)` on plain decimal numerals. -/
def pyFloatParse (s : PyStr) : Option ℚ :=
  match pyStrip s with
  | [] => none
  | c :: r =>
    if c = '-' then (pyFloatCore r).map (fun q => -q)
    else if c = '+' then pyFloatCore r
    else pyFloatCore (c :: r)

/-- CPython `int(float(...))` truncation toward zero. -/
def ratTrunc (q : ℚ) : Int :=
  q.num / (q.den : Int)

/-- Python `round(q)`: nearest integer, ties to even. -/
def pyRound (q : ℚ) : Int :=
  let f := ⌊q⌋
  let r := q - (f : ℚ)
  if r < 1 / 2 then f
  else if r > 1 / 2 then f + 1
  else if f % 2 = 0 then f else f + 1

/-- Python `round(q, 1)`: nearest multiple of 1/10, ties to even. -/
def pyRound1 (q : ℚ) : ℚ :=
  (pyRound (q * 10) : ℚ) / 10

/-- Embeds `parse_minutes` from fetch_bref_yesterdays_games.py (lines 136-147) and
its identical copy in fetch_bref_all_stats.py (lines 149-160).  The argument
is `none` for Python `None` / pandas `NaN`; otherwise the raw cell string.
Malformed input returns 0, not an absent marker. -/
def parse_minutes (mp : Option PyStr) : ℚ :=
  match mp with
  | none => 0
  | some s =>
    let t := pyStrip s
    if containsChar ':' t then
      let ps := splitOnChar ':' t
      match pyIntParse (ps.getD 0 []), pyIntParse (ps.getD 1 []) with
      | some m, some sec => (m : ℚ) + (sec : ℚ) / 60
      | _, _ => 0
    else
      match pyFloatParse t with
      | some q => q
      | none => 0

/-- Embeds `parse_int` from fetch_bref_yesterdays_games.py (lines 150-157) /
fetch_bref_all_stats.py: `int(float(val))`, 0 on missing or malformed. -/
def parse_int (val : Option PyStr) : Int :=
  match val with
  | none => 0
  | some s =>
    match pyFloatParse s with
    | some q => ratTrunc q
    | none => 0

/-- Embeds `parse_pct` from fetch_bref_all_stats.py (lines 173-183): a leading "."
gets a "0" prepended, then `float`; 0.0 on missing, empty or malformed. -/
def parse_pct (val : Option PyStr) : ℚ :=
  match val with
  | none => 0
  | some v =>
    let s := pyStrip v
    let s2 := match s with
      | '.' :: _ => '0' :: s
      | _ => s
    if s2.isEmpty then 0
    else
      match pyFloatParse s2 with
      | some q => q
      | none => 0

/-- Embeds `parse_rating` from fetch_bref_all_stats.py (lines 186-193):
`float(val)`, 0.0 on missing or malformed. -/
def parse_rating (val : Option PyStr) : ℚ :=
  match val with
  | none => 0
  | some s =>
    match pyFloatParse s with
    | some q => q
    | none => 0

/-! Section: Identity resolution (players table) -/

/-- Combining-mark test: the Unicode combining diacritical marks block
U+0300..U+036F (the block produced by the decompositions modelled below). -/
def isCombiningMark (c : Char) : Bool :=
  0x300 ≤ c.toNat && c.toNat ≤ 0x36F

/-- Unicode NFKD decomposition (Python `unicodedata.normalize('NFKD', ...)`),
modelled from the Unicode decomposition table restricted to the accented
letters exercised by this development; ASCII characters decompose to
themselves. -/
def nfkdChar (c : Char) : List Char :=
  if c = 'č' then ['c', Char.ofNat 0x30C]
  else if c = 'ć' then ['c', Char.ofNat 0x301]
  else if c = 'Č' then ['C', Char.ofNat 0x30C]
  else if c = 'Ć' then ['C', Char.ofNat 0x301]
  else if c = 'ü' then ['u', Char.ofNat 0x308]
  else if c = 'é' then ['e', Char.ofNat 0x301]
  else [c]

/-- Embeds `normalize_name` from fetch_headshots.py (lines 47-66): NFKD-decompose,
drop combining marks, lower-case, strip the fixed suffix list in order,
then strip whitespace.  Used only by the headshot enrichment lookup. -/
def normalize_name (name : String) : String :=
  let decomposed := (name.toList.map nfkdChar).flatten
  let stripped := decomposed.filter (fun c => !isCombiningMark c)
  let lowered := stripped.map Char.toLower
  let suffixes : List (List Char) :=
    [" jr.".toList, " jr".toList, " sr.".toList, " sr".toList,
     " iii".toList, " ii".toList, " iv".toList]
  let base := suffixes.foldl
    (fun s suf =>
      if suf.length ≤ s.length && s.drop (s.length - suf.length) = suf then
        s.take (s.length - suf.length)
      else s)
    lowered
  String.mk (pyStrip base)

/-- A row of the `players` table. -/
structure PlayerRow where
  player_id : Nat
  full_name : String
  team_abbreviation : Option String
deriving DecidableEq, Repr

/-- Embeds `SELECT player_id FROM players WHERE full_name = %s` (first match). -/
def findByName (name : String) : List PlayerRow → Option PlayerRow
  | [] => none
  | p :: ps => if p.full_name = name then some p else findByName name ps

/-- Embeds `(SELECT COALESCE(MAX(player_id), 0) + 1 FROM players)`. -/
def nextPlayerId (db : List PlayerRow) : Nat :=
  db.foldl (fun a p => max a p.player_id) 0 + 1

/-- Embeds `get_or_create_player` from fetch_bref_rosters_and_logs.py (lines
152-179) and its identical copies in fetch_bref_yesterdays_games.py /
fetch_bref_all_stats.py: look up the RAW `full_name` by exact equality; on a
hit overwrite the row's team and return its id; on a miss insert a new row
with id MAX+1.  Returns the resolved id and the updated table. -/
def get_or_create_player (name : String) (team : Option String)
    (db : List PlayerRow) : Nat × List PlayerRow :=
  match findByName name db with
  | some p =>
    (p.player_id,
     db.map (fun q =>
       if q.player_id = p.player_id then { q with team_abbreviation := team } else q))
  | none =>
    let pid := nextPlayerId db
    (pid, db ++ [{ player_id := pid, full_name := name, team_abbreviation := team }])

/-! Section: Season token -/

/-- A calendar date as the scripts see it (no time component). -/
structure PDate where
  year : Nat
  month : Nat
  day : Nat
deriving DecidableEq, Repr

/-- Embeds `get_season_string` from fetch_bref_yesterdays_games.py (lines 295-303)
and its identical copy in fetch_bref_all_stats.py (lines 369-377):
`str(season_start_year) + "-" + str(season_end_year)[2:]`. -/
def get_season_string (d : PDate) : String :=
  let season_end_year := if d.month ≥ 10 then d.year + 1 else d.year
  let season_start_year := season_end_year - 1
  toString season_start_year ++ "-" ++ (toString season_end_year).drop 2

/-- Spec-side season token: start year, a dash, and the end year's last two
digits written with two digits. -/
def twoDigitYear (n : Nat) : String :=
  (if n % 100 < 10 then "0" else "") ++ toString (n % 100)

/-- Spec-side season token format. -/
def seasonTokenSpec (startY endY : Nat) : String :=
  toString startY ++ "-" ++ twoDigitYear endY

/-! Section: Game-log store -/

/-- The base counting stats of one game log row. -/
structure StatLine where
  min : ℚ
  pts : Int
  reb : Int
  ast : Int
  stl : Int
  blk : Int
deriving DecidableEq, Repr

/-- A row of the `player_game_logs` table. -/
structure GameLogRow where
  game_log_id : Nat
  player_id : Nat
  season : String
  game_date : PDate
  opponent : Option String
  stats : StatLine
deriving DecidableEq, Repr

/-- The unique key of `player_game_logs`: (player_id, season, game_date). -/
abbrev LogKey := Nat × String × PDate

/-- Key of a stored row. -/
def rowKey (r : GameLogRow) : LogKey :=
  (r.player_id, r.season, r.game_date)

/-- A normalized performance record about to be written. -/
structure RawLogRecord where
  player_id : Nat
  season : String
  game_date : PDate
  opponent : Option String
  stats : StatLine
deriving DecidableEq, Repr

/-- Key of an incoming record. -/
def recKey (r : RawLogRecord) : LogKey :=
  (r.player_id, r.season, r.game_date)

/-- First row with the given unique key, if any. -/
def findByLogKey (k : LogKey) : List GameLogRow → Option GameLogRow
  | [] => none
  | r :: rs => if rowKey r = k then some r else findByLogKey k rs

/-- Number of rows carrying the given key (1 at most under the table's
UNIQUE constraint). -/
def logKeyCount (k : LogKey) : List GameLogRow → Nat
  | [] => 0
  | r :: rs => (if rowKey r = k then 1 else 0) + logKeyCount k rs

/-- Fresh `game_log_id` (the SERIAL column, modelled as MAX+1). -/
def nextGameLogId (db : List GameLogRow) : Nat :=
  db.foldl (fun a r => max a r.game_log_id) 0 + 1

/-- The `DO UPDATE SET` clause of the game-log upsert: the six counting
stats of the rows carrying the conflicting key are overwritten (the
opponent column is not in the SET list); rows with other keys are
untouched. -/
def updateStats (k : LogKey) (st : StatLine) (db : List GameLogRow) :
    List GameLogRow :=
  db.map (fun q => if rowKey q = k then { q with stats := st } else q)

/-- The fresh row created by an INSERT that hits no conflict. -/
def newGameLogRow (gid : Nat) (r : RawLogRecord) : GameLogRow :=
  { game_log_id := gid, player_id := r.player_id, season := r.season,
    game_date := r.game_date, opponent := r.opponent, stats := r.stats }

/-- Embeds `insert_game_log` from fetch_bref_yesterdays_games.py (lines 306-333) /
`insert_query` from fetch_bref_rosters_and_logs.py (lines 313-320) /
fetch_bref_all_stats.py: `INSERT ... ON CONFLICT (player_id, season,
game_date) DO UPDATE SET min = EXCLUDED.min, ... RETURNING game_log_id`.
Total: it never raises. -/
def insert_game_log (r : RawLogRecord) (db : List GameLogRow) :
    Nat × List GameLogRow :=
  match findByLogKey (recKey r) db with
  | some row =>
    (row.game_log_id, updateStats (recKey r) r.stats db)
  | none =>
    let gid := nextGameLogId db
    (gid, db ++ [newGameLogRow gid r])

/-- Embeds `insert_query` from fetch_todays_stats.py (lines 224-229) /
fetch_team_rosters_and_logs.py (lines 127-132): `INSERT ... ON CONFLICT
(player_id, season, game_date) DO NOTHING` — a conflicting row is left
untouched (first write wins). -/
def insert_log_do_nothing (r : RawLogRecord) (db : List GameLogRow) :
    List GameLogRow :=
  match findByLogKey (recKey r) db with
  | some _ => db
  | none => db ++ [newGameLogRow (nextGameLogId db) r]

/-! Section: Basketball-Reference box-score ingestion (basic stats) -/

/-- A row of a scraped basic box-score table, as
fetch_box_scores_for_game reads it: the name cell (already `str()`-ed) and
the raw stat cells (`none` = missing / NaN). -/
structure BrefBasicRow where
  name : String
  mp : Option PyStr
  pts : Option PyStr
  trb : Option PyStr
  ast : Option PyStr
  stl : Option PyStr
  blk : Option PyStr
deriving Repr

/-- One parsed player performance as appended to `players_stats`. -/
structure BrefStatRecord where
  name : String
  min : Int
  pts : Int
  reb : Int
  ast : Int
  stl : Int
  blk : Int
deriving DecidableEq, Repr

/-- The header / DNP name skip list of fetch_box_scores_for_game
(fetch_bref_yesterdays_games.py lines 213-218). -/
def isSkippedName (name : String) : Bool :=
  name = "Starters" || name = "Reserves" || name = "Team Totals" ||
  name = "nan" || name = "" ||
  containsSubstring "Did Not".toList name.toList ||
  containsSubstring "Not With".toList name.toList ||
  containsSubstring "Inactive".toList name.toList

/-- The per-row processing of fetch_box_scores_for_game
(fetch_bref_yesterdays_games.py lines 209-253) and its copy in
fetch_all_stats_for_game (fetch_bref_all_stats.py lines 239-277): skip
header/DNP names, parse the counting stats, and drop the row when parsed
minutes and points are both zero (`if minutes == 0 and pts == 0:
continue`).  `none` models `continue` — the row never reaches the store.
The team/opponent bookkeeping is independent of the drop decision and is
omitted here. -/
def brefRowToStat (row : BrefBasicRow) : Option BrefStatRecord :=
  if isSkippedName row.name then none
  else
    let minutes := parse_minutes row.mp
    let pts := parse_int row.pts
    if minutes = 0 ∧ pts = 0 then none
    else
      some { name := row.name, min := pyRound minutes, pts := pts,
             reb := parse_int row.trb, ast := parse_int row.ast,
             stl := parse_int row.stl, blk := parse_int row.blk }

/-! Section: basketball_reference_web_scraper roster/box-score ingestion -/

/-- A box score returned by `client.player_box_scores` as
fetch_bref_rosters_and_logs.py reads it (`none` = key absent or None). -/
structure ScraperBox where
  name : String
  opponent : Option String
  seconds_played : Option Int
  made_field_goals : Option Int
  made_three_point_field_goals : Option Int
  made_free_throws : Option Int
  offensive_rebounds : Option Int
  defensive_rebounds : Option Int
  assists : Option Int
  steals : Option Int
  blocks : Option Int
deriving Repr

/-- Python `box.get(key, 0) or 0`: both a missing key and a falsy value
collapse to 0. -/
def orZero (v : Option Int) : Int :=
  v.getD 0

/-- Embeds `calculate_points` from fetch_bref_rosters_and_logs.py (lines 182-189):
`made_fg * 2 + made_3pt + made_ft`. -/
def calculate_points (box : ScraperBox) : Int :=
  orZero box.made_field_goals * 2 + orZero box.made_three_point_field_goals
    + orZero box.made_free_throws

/-- Embeds `calculate_rebounds` from fetch_bref_rosters_and_logs.py (lines
192-196). -/
def calculate_rebounds (box : ScraperBox) : Int :=
  orZero box.offensive_rebounds + orZero box.defensive_rebounds

/-- The per-box ingestion step of the fetch_bref_rosters_and_logs.py main
loop (lines 340-364): minutes are `round(seconds / 60)`, the counting stats
are computed from the box, and the record is unconditionally upserted with
the DO UPDATE statement — this path has no minutes/points activity
filter. -/
def rosterBoxIngest (playerId : Nat) (season : String) (current_date : PDate)
    (box : ScraperBox) (db : List GameLogRow) : List GameLogRow :=
  let seconds := orZero box.seconds_played
  let minutes := pyRound ((seconds : ℚ) / 60)
  (insert_game_log
    { player_id := playerId, season := season, game_date := current_date,
      opponent := box.opponent,
      stats := { min := (minutes : ℚ), pts := calculate_points box,
                 reb := calculate_rebounds box, ast := orZero box.assists,
                 stl := orZero box.steals, blk := orZero box.blocks } } db).2

/-! Section: Basketball-Reference advanced stats -/

/-- A row of a scraped advanced box-score table (raw cells). -/
structure BrefAdvRow where
  ortg : Option PyStr
  drtg : Option PyStr
  ts : Option PyStr
  efg : Option PyStr
  usg : Option PyStr
deriving Repr

/-- The normalized advanced stats appended to `players_data`. -/
structure BrefAdvStats where
  ts_pct : ℚ
  efg_pct : ℚ
  ortg : ℚ
  drtg : ℚ
  net_rtg : ℚ
  usg_pct : ℚ
deriving DecidableEq, Repr

/-- The advanced-stat normalization of fetch_all_stats_for_game
(fetch_bref_all_stats.py lines 315-328) and fetch_advanced_box_score
(fetch_bref_advanced_stats.py lines 191-216): a row whose parsed ratings
are both zero is skipped (`none`); otherwise `net_rtg` is recomputed as
`ortg - drtg if ortg and drtg else 0.0` — the scraped table's own
net-rating column is never read. -/
def brefAdvFromRow (row : BrefAdvRow) : Option BrefAdvStats :=
  let ortg := parse_rating row.ortg
  let drtg := parse_rating row.drtg
  if ortg = 0 ∧ drtg = 0 then none
  else
    some { ts_pct := parse_pct row.ts * 100,
           efg_pct := parse_pct row.efg * 100,
           ortg := ortg, drtg := drtg,
           net_rtg := if ortg ≠ 0 ∧ drtg ≠ 0 then ortg - drtg else 0,
           usg_pct := parse_pct row.usg }

/-! Section: nba_api advanced stats extraction -/

/-- A DataFrame row from the nba_api advanced game logs: column name to
optional float value; a missing pair models a column absent from the
response, `some none` a present column holding None/NaN. -/
abbrev ApiRow := List (String × Option ℚ)

/-- First value bound to a key in an association list. -/
def assocFind {α β : Type} [DecidableEq α] (k : α) : List (α × β) → Option β
  | [] => none
  | p :: ps => if p.1 = k then some p.2 else assocFind k ps

/-- Embeds `get_value` from extract_advanced_stats_from_row
(fetch_all_players_advanced_box_scores.py lines 186-192): the first listed
column that is present and holds a non-None value wins; `to_float` of a
float is the value itself. -/
def get_value (row : ApiRow) : List String → Option ℚ
  | [] => none
  | k :: rest =>
    match assocFind k row with
    | some (some v) => some v
    | _ => get_value row rest

/-- Embeds `get_pct_as_whole` from extract_advanced_stats_from_row (lines
194-199): `round(val * 100, 1)` on the first available decimal fraction. -/
def get_pct_as_whole (row : ApiRow) (keys : List String) : Option ℚ :=
  match get_value row keys with
  | some v => some (pyRound1 (v * 100))
  | none => none

/-- The eight advanced stats of an `advanced_box_scores` row. -/
structure ApiAdvStats where
  offensive_rating : Option ℚ
  defensive_rating : Option ℚ
  net_rating : Option ℚ
  effective_fg_percentage : Option ℚ
  true_shooting_percentage : Option ℚ
  usage_percentage : Option ℚ
  pace : Option ℚ
  player_impact_estimate : Option ℚ
deriving DecidableEq, Repr

/-- Embeds `extract_advanced_stats_from_row` from
fetch_all_players_advanced_box_scores.py (lines 182-210) (and its copy
`extract_advanced_stats` in fetch_yesterdays_games.py lines 275-302):
`net_rating` is read straight from the source's NET_RATING / E_NET_RATING
column. -/
def extract_advanced_stats_from_row (row : ApiRow) : ApiAdvStats :=
  { offensive_rating := get_value row ["OFF_RATING", "E_OFF_RATING"],
    defensive_rating := get_value row ["DEF_RATING", "E_DEF_RATING"],
    net_rating := get_value row ["NET_RATING", "E_NET_RATING"],
    effective_fg_percentage := get_pct_as_whole row ["EFG_PCT"],
    true_shooting_percentage := get_pct_as_whole row ["TS_PCT"],
    usage_percentage := get_pct_as_whole row ["USG_PCT", "E_USG_PCT"],
    pace := get_value row ["PACE", "E_PACE"],
    player_impact_estimate := get_pct_as_whole row ["PIE"] }

/-- Embeds `insert_advanced_stats` of fetch_all_players_advanced_box_scores.py
(lines 213-235): `ON CONFLICT (game_log_id) DO NOTHING` on the
advanced_box_scores table (modelled as an association list keyed by the
primary key game_log_id). -/
def insert_advanced_do_nothing (gid : Nat) (s : ApiAdvStats)
    (db : List (Nat × ApiAdvStats)) : List (Nat × ApiAdvStats) :=
  if (assocFind gid db).isSome then db else db ++ [(gid, s)]

/-- Embeds `upsert_advanced_stats` of fetch_bref_all_stats.py (lines 410-439) /
fetch_bref_advanced_stats.py: `ON CONFLICT (game_log_id) DO UPDATE SET
...` — all stat columns of the conflicting row are overwritten.  The
table's primary key keeps game_log_id unique. -/
def upsert_advanced_stats (gid : Nat) (s : BrefAdvStats) :
    List (Nat × BrefAdvStats) → List (Nat × BrefAdvStats)
  | [] => [(gid, s)]
  | p :: ps => if p.1 = gid then (gid, s) :: ps else p :: upsert_advanced_stats gid s ps

/-! Section: Date parsing and advanced-row matching -/

/-- The capitalised month abbreviations of the "%b %d, %Y" format. -/
def monthAbbrs : List (PyStr × Nat) :=
  [("Jan".toList, 1), ("Feb".toList, 2), ("Mar".toList, 3), ("Apr".toList, 4),
   ("May".toList, 5), ("Jun".toList, 6), ("Jul".toList, 7), ("Aug".toList, 8),
   ("Sep".toList, 9), ("Oct".toList, 10), ("Nov".toList, 11), ("Dec".toList, 12)]

/-- Model of `datetime.strptime(raw, "%b %d, %Y")` on the capitalised month
abbreviations the NBA sources emit, e.g. "Jan 5, 2026" (day-range
validation of the standard library is not re-modelled). -/
def strptimeBdY (s : PyStr) : Option PDate :=
  match assocFind (s.take 3) monthAbbrs with
  | none => none
  | some m =>
    match s.drop 3 with
    | ' ' :: rest =>
      let dayDs := rest.takeWhile Char.isDigit
      let rest2 := rest.dropWhile Char.isDigit
      if dayDs.length = 0 || 2 < dayDs.length then none
      else
        match rest2 with
        | ',' :: ' ' :: yds =>
          if yds.length = 4 && yds.all Char.isDigit then
            some ⟨digitsVal yds, m, digitsVal dayDs⟩
          else none
        | _ => none
    | _ => none

/-- Python `s.replace(pat, "")`: remove every occurrence of `pat`.  The
fuel argument (at least the string's length) makes the recursion
structural: each step consumes at least one character. -/
def removeAllFuel (pat : PyStr) : Nat → PyStr → PyStr
  | 0, _ => []
  | _ + 1, [] => []
  | fuel + 1, c :: t =>
    if listStartsWith pat (c :: t) && !pat.isEmpty then
      removeAllFuel pat fuel ((c :: t).drop pat.length)
    else
      c :: removeAllFuel pat fuel t

/-- Python `s.replace(pat, "")`. -/
def removeAll (pat : PyStr) (s : PyStr) : PyStr :=
  removeAllFuel pat s.length s

/-- Model of `datetime.fromisoformat` restricted to plain "YYYY-MM-DD"
dates — the shape left after parse_game_date's Z / T00:00:00 cleanup. -/
def isoParseDate (s : PyStr) : Option PDate :=
  match splitOnChar '-' s with
  | [y, m, d] =>
    if y.length = 4 && y.all Char.isDigit && m.length = 2 && m.all Char.isDigit
        && d.length = 2 && d.all Char.isDigit then
      let mv := digitsVal m
      let dv := digitsVal d
      if 1 ≤ mv && mv ≤ 12 && 1 ≤ dv && dv ≤ 31 then
        some ⟨digitsVal y, mv, dv⟩
      else none
    else none
  | _ => none

/-- Embeds `parse_game_date` from fetch_all_players_advanced_box_scores.py (lines
163-179) (and its copy in fetch_yesterdays_games.py): try "%b %d, %Y",
then ISO after removing "Z" and "T00:00:00", then `pd.Timestamp`.  The
final pandas parser is an external collaborator and is passed in as
`pdTs`; `none` input models a falsy raw value (None or empty string). -/
def parse_game_date (pdTs : PyStr → Option PDate) (raw : Option PyStr) :
    Option PDate :=
  match raw with
  | none => none
  | some s =>
    if s.isEmpty then none
    else
      match strptimeBdY s with
      | some d => some d
      | none =>
        match isoParseDate (removeAll "T00:00:00".toList (removeAll "Z".toList s)) with
        | some d => some d
        | none => pdTs s

/-- One row of the advanced game-log response, as the matching loop of
fetch_all_players_advanced_box_scores.py main (lines 338-357) reads it:
the GAME_DATE cell (`none` when the column is absent or the value falsy)
and the GAME_ID cell already passed through `str()` (`none` when the
column is absent). -/
structure ApiLogRow where
  raw_date : Option PyStr
  game_id : Option PyStr
deriving Repr

/-- The two-key match of the main loop (lines 338-353): date key first,
then — only if the date key missed — the stripped source game id.  (The
source guards the parse_game_date call with `if raw_date is not None`;
since parse_game_date returns None on a falsy argument anyway, the guard
is folded into the Option.) -/
def matchAdvRow (pdTs : PyStr → Option PDate) (dateLookup : List (PDate × Nat))
    (gameIdLookup : List (PyStr × Nat)) (row : ApiLogRow) : Option Nat :=
  let byDate :=
    match parse_game_date pdTs row.raw_date with
    | some pd => assocFind pd dateLookup
    | none => none
  match byDate with
  | some g => some g
  | none =>
    match row.game_id with
    | some gs =>
      let g := pyStrip gs
      if g.isEmpty then none else assocFind g gameIdLookup
    | none => none

/-- Outcome of one row of the main loop: counted unmatched, counted
skipped (already has advanced stats), or inserted. -/
inductive AdvRowOutcome
  | unmatched
  | skipped
  | inserted (gid : Nat)
deriving DecidableEq, Repr

/-- The per-row outcome of the main loop (lines 338-366). -/
def processAdvRow (pdTs : PyStr → Option PDate) (dateLookup : List (PDate × Nat))
    (gameIdLookup : List (PyStr × Nat)) (existing : List Nat)
    (row : ApiLogRow) : AdvRowOutcome :=
  match matchAdvRow pdTs dateLookup gameIdLookup row with
  | none => .unmatched
  | some gid => if gid ∈ existing then .skipped else .inserted gid

/-- Store effect of a row outcome: only `inserted` touches the store
(lines 355-365 — `unmatched` and `skipped` both `continue`). -/
def applyAdvOutcome (stats : ApiAdvStats) (db : List (Nat × ApiAdvStats)) :
    AdvRowOutcome → List (Nat × ApiAdvStats)
  | .unmatched => db
  | .skipped => db
  | .inserted gid => insert_advanced_do_nothing gid stats db

/-! Section: Retrying fetcher -/

/-- Outcome of one constructor call against the external nba_api
collaborator: success, a `TypeError` (the call signature rejected the
argument names — a shape mismatch), or any other exception. -/
inductive CallOutcome
  | ok
  | typeErr
  | err
deriving DecidableEq, Repr

/-- The environment of one `fetch_team_players` run: the outcome of the
primary-shape call and of the fallback-shape call on each attempt, and the
`random.randint(0, 500)` jitter drawn on each attempt. -/
structure FetchEnv where
  primary : Nat → CallOutcome
  fallback : Nat → CallOutcome
  jitter : Nat → Nat

/-- Result of a run: a successful construction (on which attempt, and
whether via the fallback shape) or an exception propagated to the caller
(from which attempt, and whether it was the fallback call that raised). -/
inductive FetchResult
  | success (attempt : Nat) (viaFallback : Bool)
  | propagated (attempt : Nat) (fromFallback : Bool)
deriving DecidableEq, Repr

/-- The retry loop of `fetch_team_players`
(fetch_team_rosters_and_logs.py lines 26-51 /
fetch_all_players_advanced_box_scores.py lines 30-55), `for attempt in
range(1, MAX_RETRIES + 1)`: a primary-shape `TypeError` triggers one
fallback-shape call inside the handler — an exception raised by that call
is not caught by the loop and propagates; any other primary-shape
exception is re-raised once `attempt == MAX_RETRIES` and otherwise sleeps
`1000 * attempt + randint(0, 500)` ms and retries.  Returns the result and
the list of sleeps (in ms) performed.  `fuel` counts the loop iterations
left (`maxR - attempt + 1` at entry). -/
def fetchGo (env : FetchEnv) (maxR : Nat) : Nat → Nat → FetchResult × List Nat
  | attempt, 0 => (.propagated attempt false, [])
  | attempt, fuel + 1 =>
    match env.primary attempt with
    | .ok => (.success attempt false, [])
    | .typeErr =>
      match env.fallback attempt with
      | .ok => (.success attempt true, [])
      | _ => (.propagated attempt true, [])
    | .err =>
      if attempt = maxR then (.propagated attempt false, [])
      else
        let d := 1000 * attempt + env.jitter attempt
        let rest := fetchGo env maxR (attempt + 1) fuel
        (rest.1, d :: rest.2)

/-- A whole `fetch_team_players` run with `MAX_RETRIES = maxR`. -/
def fetch_team_players_run (env : FetchEnv) (maxR : Nat) : FetchResult × List Nat :=
  fetchGo env maxR 1 maxR

/-! Section: Store lemmas -/

theorem rowKey_set_stats (q : GameLogRow) (st : StatLine) :
    rowKey { q with stats := st } = rowKey q := rfl

theorem rowKey_if_update (k2 : LogKey) (st : StatLine) (q : GameLogRow) :
    rowKey (if rowKey q = k2 then { q with stats := st } else q) = rowKey q := by
  split <;> rfl

theorem gameLogId_if_update (k2 : LogKey) (st : StatLine) (q : GameLogRow) :
    (if rowKey q = k2 then { q with stats := st } else q).game_log_id = q.game_log_id := by
  split <;> rfl

theorem findByLogKey_key (k : LogKey) :
    ∀ db : List GameLogRow, ∀ row : GameLogRow,
      findByLogKey k db = some row → rowKey row = k
  | [], _, h => by simp [findByLogKey] at h
  | r :: rs, row, h => by
    by_cases hk : rowKey r = k
    · simp only [findByLogKey, if_pos hk] at h
      rw [← Option.some_inj.mp h]; exact hk
    · simp only [findByLogKey, if_neg hk] at h
      exact findByLogKey_key k rs row h

theorem findByLogKey_updateStats (k k2 : LogKey) (st : StatLine) :
    ∀ db : List GameLogRow,
      findByLogKey k (updateStats k2 st db)
        = (findByLogKey k db).map
            (fun q => if rowKey q = k2 then { q with stats := st } else q)
  | [] => rfl
  | r :: rs => by
    simp only [updateStats, List.map_cons, findByLogKey]
    rw [rowKey_if_update]
    by_cases hk : rowKey r = k
    · rw [if_pos hk, if_pos hk]; rfl
    · rw [if_neg hk, if_neg hk]
      exact findByLogKey_updateStats k k2 st rs

theorem findByLogKey_append (k : LogKey) :
    ∀ db es : List GameLogRow,
      findByLogKey k (db ++ es)
        = (match findByLogKey k db with
           | some r => some r
           | none => findByLogKey k es)
  | [], _ => rfl
  | r :: rs, es => by
    simp only [List.cons_append, findByLogKey]
    by_cases hk : rowKey r = k
    · rw [if_pos hk, if_pos hk]
    · rw [if_neg hk, if_neg hk]
      exact findByLogKey_append k rs es

theorem updateStats_of_find_none (k : LogKey) (st : StatLine) :
    ∀ db : List GameLogRow, findByLogKey k db = none → updateStats k st db = db
  | [], _ => rfl
  | r :: rs, h => by
    by_cases hk : rowKey r = k
    · simp [findByLogKey, if_pos hk] at h
    · simp only [findByLogKey, if_neg hk] at h
      simp only [updateStats, List.map_cons, if_neg hk]
      have := updateStats_of_find_none k st rs h
      simp only [updateStats] at this
      rw [this]

theorem updateStats_idem (k : LogKey) (st : StatLine) (db : List GameLogRow) :
    updateStats k st (updateStats k st db) = updateStats k st db := by
  simp only [updateStats, List.map_map]
  apply List.map_congr_left
  intro q _
  by_cases hk : rowKey q = k
  · simp [Function.comp, hk]
  · simp [Function.comp, hk]

theorem logKeyCount_updateStats (k k2 : LogKey) (st : StatLine) :
    ∀ db : List GameLogRow,
      logKeyCount k (updateStats k2 st db) = logKeyCount k db
  | [] => rfl
  | r :: rs => by
    simp only [updateStats, List.map_cons, logKeyCount]
    rw [rowKey_if_update]
    have := logKeyCount_updateStats k k2 st rs
    simp only [updateStats] at this
    rw [this]

theorem logKeyCount_append (k : LogKey) :
    ∀ db es : List GameLogRow,
      logKeyCount k (db ++ es) = logKeyCount k db + logKeyCount k es
  | [], _ => by simp [logKeyCount]
  | r :: rs, es => by
    have ih := logKeyCount_append k rs es
    simp only [List.cons_append, logKeyCount, List.append_eq] at *
    omega

theorem logKeyCount_eq_zero (k : LogKey) :
    ∀ db : List GameLogRow, findByLogKey k db = none → logKeyCount k db = 0
  | [], _ => rfl
  | r :: rs, h => by
    by_cases hk : rowKey r = k
    · simp [findByLogKey, if_pos hk] at h
    · simp only [findByLogKey, if_neg hk] at h
      simp only [logKeyCount, if_neg hk, logKeyCount_eq_zero k rs h]

theorem logKeyCount_pos (k : LogKey) :
    ∀ db : List GameLogRow, ∀ row, findByLogKey k db = some row →
      1 ≤ logKeyCount k db
  | [], _, h => by simp [findByLogKey] at h
  | r :: rs, row, h => by
    by_cases hk : rowKey r = k
    · simp [logKeyCount, if_pos hk]
    · simp only [findByLogKey, if_neg hk] at h
      simp only [logKeyCount, if_neg hk]
      have := logKeyCount_pos k rs row h
      omega

theorem insert_game_log_find (r : RawLogRecord) (db : List GameLogRow) :
    Option.map GameLogRow.stats (findByLogKey (recKey r) (insert_game_log r db).2)
      = some r.stats := by
  unfold insert_game_log
  cases h0 : findByLogKey (recKey r) db with
  | some row =>
    simp only
    rw [findByLogKey_updateStats, h0]
    simp [if_pos (findByLogKey_key _ _ _ h0)]
  | none =>
    simp only
    rw [findByLogKey_append, h0]
    simp [findByLogKey, rowKey, recKey, newGameLogRow]

theorem insert_game_log_count (r : RawLogRecord) (db : List GameLogRow)
    (h : logKeyCount (recKey r) db ≤ 1) :
    logKeyCount (recKey r) (insert_game_log r db).2 = 1 := by
  unfold insert_game_log
  cases h0 : findByLogKey (recKey r) db with
  | some row =>
    simp only
    rw [logKeyCount_updateStats]
    have := logKeyCount_pos _ _ _ h0
    omega
  | none =>
    simp only
    rw [logKeyCount_append, logKeyCount_eq_zero _ _ h0]
    simp [logKeyCount, rowKey, recKey, newGameLogRow]

theorem updateStats_append (k : LogKey) (st : StatLine) (db es : List GameLogRow) :
    updateStats k st (db ++ es) = updateStats k st db ++ updateStats k st es := by
  simp [updateStats]

theorem insert_game_log_twice (r : RawLogRecord) (db : List GameLogRow) :
    insert_game_log r (insert_game_log r db).2 = insert_game_log r db := by
  cases h0 : findByLogKey (recKey r) db with
  | some row =>
    have hkey : rowKey row = recKey r := findByLogKey_key _ _ _ h0
    have h1 : insert_game_log r db = (row.game_log_id, updateStats (recKey r) r.stats db) := by
      unfold insert_game_log; rw [h0]
    have hfind2 : findByLogKey (recKey r) (updateStats (recKey r) r.stats db)
        = some { row with stats := r.stats } := by
      rw [findByLogKey_updateStats, h0]
      simp [hkey]
    rw [h1]
    unfold insert_game_log
    rw [hfind2]
    simp only [updateStats_idem]
  | none =>
    have h1 : insert_game_log r db
        = (nextGameLogId db, db ++ [newGameLogRow (nextGameLogId db) r]) := by
      unfold insert_game_log; rw [h0]
    have hnewkey : rowKey (newGameLogRow (nextGameLogId db) r) = recKey r := rfl
    have hfind2 : findByLogKey (recKey r) (db ++ [newGameLogRow (nextGameLogId db) r])
        = some (newGameLogRow (nextGameLogId db) r) := by
      rw [findByLogKey_append, h0]
      simp [findByLogKey, hnewkey]
    rw [h1]
    unfold insert_game_log
    rw [hfind2]
    simp only
    rw [updateStats_append, updateStats_of_find_none _ _ _ h0]
    have hone : updateStats (recKey r) r.stats [newGameLogRow (nextGameLogId db) r]
        = [newGameLogRow (nextGameLogId db) r] := by
      simp [updateStats, hnewkey, newGameLogRow]
    rw [hone]
    rfl

/-- C1: ingesting the same raw performance record twice through the
`ON CONFLICT DO UPDATE` game-log upsert (fetch_bref_yesterdays_games.py
insert_game_log / fetch_bref_rosters_and_logs.py insert_query) leaves the
store exactly as a single ingestion does: the final table and the returned
game_log_id coincide with those of one ingestion, exactly one row carries
the (player_id, season, game_date) key, and its stats equal the record's.
The upsert is a total function, so the second ingestion raises no error.
The hypothesis is the table's UNIQUE constraint on the key. -/
theorem c1_reingest_idempotent (r : RawLogRecord) (db : List GameLogRow)
    (h : logKeyCount (recKey r) db ≤ 1) :
    (insert_game_log r (insert_game_log r db).2).2 = (insert_game_log r db).2
  ∧ (insert_game_log r (insert_game_log r db).2).1 = (insert_game_log r db).1
  ∧ logKeyCount (recKey r) (insert_game_log r (insert_game_log r db).2).2 = 1
  ∧ Option.map GameLogRow.stats
      (findByLogKey (recKey r) (insert_game_log r (insert_game_log r db).2).2)
      = some r.stats := by
  have h2 := insert_game_log_twice r db
  refine ⟨by rw [h2], by rw [h2], ?_, ?_⟩
  · rw [h2]; exact insert_game_log_count r db h
  · rw [h2]; exact insert_game_log_find r db

/-- C1 witness: the idempotence theorem at a concrete record over the
empty store. -/
theorem c1_witness :
    logKeyCount (recKey ⟨1, "2025-26", ⟨2026, 1, 5⟩, some "LAL",
        ⟨(71 : ℚ)/2, 28, 4, 6, 1, 0⟩⟩) [] ≤ 1
  ∧ ((insert_game_log ⟨1, "2025-26", ⟨2026, 1, 5⟩, some "LAL", ⟨(71 : ℚ)/2, 28, 4, 6, 1, 0⟩⟩
        (insert_game_log ⟨1, "2025-26", ⟨2026, 1, 5⟩, some "LAL", ⟨(71 : ℚ)/2, 28, 4, 6, 1, 0⟩⟩ []).2).2
      = (insert_game_log ⟨1, "2025-26", ⟨2026, 1, 5⟩, some "LAL", ⟨(71 : ℚ)/2, 28, 4, 6, 1, 0⟩⟩ []).2
  ∧ (insert_game_log ⟨1, "2025-26", ⟨2026, 1, 5⟩, some "LAL", ⟨(71 : ℚ)/2, 28, 4, 6, 1, 0⟩⟩
        (insert_game_log ⟨1, "2025-26", ⟨2026, 1, 5⟩, some "LAL", ⟨(71 : ℚ)/2, 28, 4, 6, 1, 0⟩⟩ []).2).1
      = (insert_game_log ⟨1, "2025-26", ⟨2026, 1, 5⟩, some "LAL", ⟨(71 : ℚ)/2, 28, 4, 6, 1, 0⟩⟩ []).1
  ∧ logKeyCount (recKey ⟨1, "2025-26", ⟨2026, 1, 5⟩, some "LAL", ⟨(71 : ℚ)/2, 28, 4, 6, 1, 0⟩⟩)
      (insert_game_log ⟨1, "2025-26", ⟨2026, 1, 5⟩, some "LAL", ⟨(71 : ℚ)/2, 28, 4, 6, 1, 0⟩⟩
        (insert_game_log ⟨1, "2025-26", ⟨2026, 1, 5⟩, some "LAL", ⟨(71 : ℚ)/2, 28, 4, 6, 1, 0⟩⟩ []).2).2 = 1
  ∧ Option.map GameLogRow.stats
      (findByLogKey (recKey ⟨1, "2025-26", ⟨2026, 1, 5⟩, some "LAL", ⟨(71 : ℚ)/2, 28, 4, 6, 1, 0⟩⟩)
        (insert_game_log ⟨1, "2025-26", ⟨2026, 1, 5⟩, some "LAL", ⟨(71 : ℚ)/2, 28, 4, 6, 1, 0⟩⟩
          (insert_game_log ⟨1, "2025-26", ⟨2026, 1, 5⟩, some "LAL", ⟨(71 : ℚ)/2, 28, 4, 6, 1, 0⟩⟩ []).2).2)
      = some ⟨(71 : ℚ)/2, 28, 4, 6, 1, 0⟩) :=
  ⟨by decide, c1_reingest_idempotent _ [] (by decide)⟩

/-- C3 counterexample: on the fetch_todays_stats.py /
fetch_team_rosters_and_logs.py ingestion path the insert statement is
`ON CONFLICT DO NOTHING`, so ingesting two records for the same (player,
season, date) with different counting stats keeps the FIRST record's
values — the second does not overwrite. -/
theorem c3_counterexample :
    Option.map GameLogRow.stats
      (findByLogKey (1, "2025-26", ⟨2026, 1, 5⟩)
        (insert_log_do_nothing ⟨1, "2025-26", ⟨2026, 1, 5⟩, some "LAL", ⟨34, 30, 5, 7, 2, 1⟩⟩
          (insert_log_do_nothing ⟨1, "2025-26", ⟨2026, 1, 5⟩, some "LAL", ⟨34, 28, 4, 6, 1, 0⟩⟩ [])))
      = some ⟨34, 28, 4, 6, 1, 0⟩
  ∧ (⟨34, 28, 4, 6, 1, 0⟩ : StatLine) ≠ ⟨34, 30, 5, 7, 2, 1⟩ := by
  decide

/-- C3 amended: on the `ON CONFLICT DO UPDATE` paths
(fetch_bref_rosters_and_logs.py, fetch_bref_yesterdays_games.py,
fetch_bref_all_stats.py) ingesting two records with the same key in
sequence leaves a single row holding the second record's minutes, points,
rebounds, assists, steals and blocks — overwritten, not accumulated; the
fetch_todays_stats.py / fetch_team_rosters_and_logs.py /
fetch_yesterdays_games.py paths use `ON CONFLICT DO NOTHING` and keep the
first record's values instead. -/
theorem c3_amended_last_write_wins (r1 r2 : RawLogRecord) (db : List GameLogRow)
    (hk : recKey r1 = recKey r2) (h : logKeyCount (recKey r2) db ≤ 1) :
    Option.map GameLogRow.stats
      (findByLogKey (recKey r2) (insert_game_log r2 (insert_game_log r1 db).2).2)
      = some r2.stats
  ∧ logKeyCount (recKey r2) (insert_game_log r2 (insert_game_log r1 db).2).2 = 1 := by
  refine ⟨insert_game_log_find r2 _, insert_game_log_count r2 _ ?_⟩
  have h1 := insert_game_log_count r1 db (by rw [hk]; exact h)
  rw [hk] at h1
  omega

/-- C3 witness: the amended last-write-wins theorem at two concrete
records over the empty store. -/
theorem c3_witness :
    recKey ⟨1, "2025-26", ⟨2026, 1, 5⟩, some "LAL", ⟨34, 28, 4, 6, 1, 0⟩⟩
      = recKey ⟨1, "2025-26", ⟨2026, 1, 5⟩, some "LAL", ⟨34, 30, 5, 7, 2, 1⟩⟩
  ∧ logKeyCount (recKey ⟨1, "2025-26", ⟨2026, 1, 5⟩, some "LAL", ⟨34, 30, 5, 7, 2, 1⟩⟩) [] ≤ 1
  ∧ (Option.map GameLogRow.stats
      (findByLogKey (recKey ⟨1, "2025-26", ⟨2026, 1, 5⟩, some "LAL", ⟨34, 30, 5, 7, 2, 1⟩⟩)
        (insert_game_log ⟨1, "2025-26", ⟨2026, 1, 5⟩, some "LAL", ⟨34, 30, 5, 7, 2, 1⟩⟩
          (insert_game_log ⟨1, "2025-26", ⟨2026, 1, 5⟩, some "LAL", ⟨34, 28, 4, 6, 1, 0⟩⟩ []).2).2)
      = some ⟨34, 30, 5, 7, 2, 1⟩
  ∧ logKeyCount (recKey ⟨1, "2025-26", ⟨2026, 1, 5⟩, some "LAL", ⟨34, 30, 5, 7, 2, 1⟩⟩)
      (insert_game_log ⟨1, "2025-26", ⟨2026, 1, 5⟩, some "LAL", ⟨34, 30, 5, 7, 2, 1⟩⟩
        (insert_game_log ⟨1, "2025-26", ⟨2026, 1, 5⟩, some "LAL", ⟨34, 28, 4, 6, 1, 0⟩⟩ []).2).2 = 1) :=
  ⟨by decide, by decide, c3_amended_last_write_wins _ _ [] (by decide) (by decide)⟩

/-! Section: Player-store lemmas and C2 -/

theorem findByName_full_name (n : String) :
    ∀ db : List PlayerRow, ∀ p : PlayerRow,
      findByName n db = some p → p.full_name = n
  | [], _, h => by simp [findByName] at h
  | q :: qs, p, h => by
    by_cases hq : q.full_name = n
    · simp only [findByName, if_pos hq] at h
      rw [← Option.some_inj.mp h]; exact hq
    · simp only [findByName, if_neg hq] at h
      exact findByName_full_name n qs p h

theorem findByName_map_team (n : String) (pid : Nat) (t : Option String) :
    ∀ db : List PlayerRow,
      findByName n (db.map (fun q =>
        if q.player_id = pid then { q with team_abbreviation := t } else q))
        = (findByName n db).map (fun q =>
            if q.player_id = pid then { q with team_abbreviation := t } else q)
  | [] => rfl
  | q :: qs => by
    have hname : (if q.player_id = pid then { q with team_abbreviation := t } else q).full_name
        = q.full_name := by split <;> rfl
    simp only [List.map_cons, findByName, hname]
    by_cases hq : q.full_name = n
    · rw [if_pos hq, if_pos hq]; rfl
    · rw [if_neg hq, if_neg hq]
      exact findByName_map_team n pid t qs

theorem findByName_append (n : String) :
    ∀ db es : List PlayerRow,
      findByName n (db ++ es)
        = (match findByName n db with
           | some p => some p
           | none => findByName n es)
  | [], _ => rfl
  | q :: qs, es => by
    simp only [List.cons_append, findByName]
    by_cases hq : q.full_name = n
    · rw [if_pos hq, if_pos hq]
    · rw [if_neg hq, if_neg hq]
      exact findByName_append n qs es

/-- C2 counterexample: `get_or_create_player` — the identity resolver used
by every ingestion path — matches on the RAW `full_name`, so the two
distinct spellings "Luka Dončić" and "Luka Doncic", although equal under
`normalize_name`, create TWO PlayerIdentities (ids 1 and 2) when resolved
in sequence against an empty players table. -/
theorem c2_counterexample :
    normalize_name "Luka Dončić" = normalize_name "Luka Doncic"
  ∧ "Luka Dončić" ≠ "Luka Doncic"
  ∧ (get_or_create_player "Luka Dončić" (some "DAL") []).1 = 1
  ∧ (get_or_create_player "Luka Doncic" (some "DAL")
       (get_or_create_player "Luka Dončić" (some "DAL") []).2).1 = 2
  ∧ (1 : Nat) ≠ 2 := by
  decide

/-- C2 amended: only byte-identical raw spellings are guaranteed to
resolve to the same player_id — `get_or_create_player` compares the raw
`full_name`, so resolving the SAME spelling twice returns the same id,
while the two distinct spellings "Luka Dončić" and "Luka Doncic" (equal
under `normalize_name`, which only the headshot-enrichment lookup uses)
resolve to two different identities. -/
theorem c2_amended_raw_name_resolution (db : List PlayerRow) (name : String)
    (t1 t2 : Option String) :
    (get_or_create_player name t2 (get_or_create_player name t1 db).2).1
      = (get_or_create_player name t1 db).1
  ∧ normalize_name "Luka Dončić" = normalize_name "Luka Doncic" := by
  constructor
  · cases h0 : findByName name db with
    | some p =>
      have h1 : get_or_create_player name t1 db
          = (p.player_id, db.map (fun q =>
              if q.player_id = p.player_id then { q with team_abbreviation := t1 } else q)) := by
        unfold get_or_create_player; rw [h0]
      rw [h1]
      unfold get_or_create_player
      rw [findByName_map_team, h0]
      simp
    | none =>
      have h1 : get_or_create_player name t1 db
          = (nextPlayerId db, db ++ [⟨nextPlayerId db, name, t1⟩]) := by
        unfold get_or_create_player; rw [h0]
      rw [h1]
      unfold get_or_create_player
      rw [findByName_append, h0]
      simp [findByName]
  · decide

/-! Section: C4: net rating -/

theorem assocFind_upsert_advanced (gid : Nat) (s : BrefAdvStats) :
    ∀ db : List (Nat × BrefAdvStats),
      assocFind gid (upsert_advanced_stats gid s db) = some s
  | [] => by simp [upsert_advanced_stats, assocFind]
  | p :: ps => by
    by_cases hp : p.1 = gid
    · simp [upsert_advanced_stats, hp, assocFind]
    · simp only [upsert_advanced_stats, if_neg hp, assocFind, hp, ite_false]
      exact assocFind_upsert_advanced gid s ps

/-- C4 counterexample: on the nba_api ingestion path
(`extract_advanced_stats_from_row`), `net_rating` is read straight from
the source's NET_RATING column — for a row carrying OFF_RATING = 110,
DEF_RATING = 100 and its own NET_RATING = 3, the stored net rating is 3,
not 110 − 100: the ingestion step trusts the source value instead of
computing the difference. -/
theorem c4_counterexample :
    (extract_advanced_stats_from_row
        [("OFF_RATING", some 110), ("DEF_RATING", some 100), ("NET_RATING", some 3)]).net_rating
      = some 3
  ∧ (extract_advanced_stats_from_row
        [("OFF_RATING", some 110), ("DEF_RATING", some 100), ("NET_RATING", some 3)]).offensive_rating
      = some 110
  ∧ (extract_advanced_stats_from_row
        [("OFF_RATING", some 110), ("DEF_RATING", some 100), ("NET_RATING", some 3)]).defensive_rating
      = some 100
  ∧ some (3 : ℚ) ≠ some ((110 : ℚ) - 100) := by
  refine ⟨rfl, rfl, rfl, ?_⟩
  intro h
  rw [Option.some_inj] at h
  norm_num at h

/-- C4 amended: on the Basketball-Reference scraping paths
(fetch_bref_all_stats.py, fetch_bref_advanced_stats.py) the ingestion step
itself computes net_rtg = ortg − drtg whenever both parsed ratings are
non-zero (the scraped table's own net-rating column is never read), and
the upsert stores exactly that value; on the nba_api paths
(fetch_all_players_advanced_box_scores.py, fetch_yesterdays_games.py)
net_rating is instead taken directly from the source row. -/
theorem c4_amended_bref_net_rating (row : BrefAdvRow) (gid : Nat)
    (db : List (Nat × BrefAdvStats))
    (ho : parse_rating row.ortg ≠ 0) (hd : parse_rating row.drtg ≠ 0) :
    ∃ s : BrefAdvStats, brefAdvFromRow row = some s
      ∧ s.ortg = parse_rating row.ortg
      ∧ s.drtg = parse_rating row.drtg
      ∧ s.net_rtg = s.ortg - s.drtg
      ∧ assocFind gid (upsert_advanced_stats gid s db) = some s := by
  have hcond : ¬(parse_rating row.ortg = 0 ∧ parse_rating row.drtg = 0) :=
    fun hc => ho hc.1
  refine ⟨{ ts_pct := parse_pct row.ts * 100, efg_pct := parse_pct row.efg * 100,
            ortg := parse_rating row.ortg, drtg := parse_rating row.drtg,
            net_rtg := parse_rating row.ortg - parse_rating row.drtg,
            usg_pct := parse_pct row.usg }, ?_, rfl, rfl, rfl,
          assocFind_upsert_advanced gid _ db⟩
  unfold brefAdvFromRow
  rw [if_neg hcond, if_pos (And.intro ho hd)]

/-- C4 witness: the Basketball-Reference net-rating theorem at a concrete
scraped row (ORtg "110", DRtg "100"). -/
theorem c4_witness :
    parse_rating (some "110".toList) ≠ 0
  ∧ parse_rating (some "100".toList) ≠ 0
  ∧ (∃ s : BrefAdvStats,
      brefAdvFromRow ⟨some "110".toList, some "100".toList,
          some ".567".toList, some ".500".toList, some "31.2".toList⟩ = some s
      ∧ s.ortg = parse_rating (⟨some "110".toList, some "100".toList,
          some ".567".toList, some ".500".toList, some "31.2".toList⟩ : BrefAdvRow).ortg
      ∧ s.drtg = parse_rating (⟨some "110".toList, some "100".toList,
          some ".567".toList, some ".500".toList, some "31.2".toList⟩ : BrefAdvRow).drtg
      ∧ s.net_rtg = s.ortg - s.drtg
      ∧ assocFind 7 (upsert_advanced_stats 7 s []) = some s) :=
  ⟨by decide, by decide,
   c4_amended_bref_net_rating _ 7 [] (by decide) (by decide)⟩

/-! Section: C5: activity filter -/

/-- C5 counterexample: the fetch_bref_rosters_and_logs.py ingestion path
has no activity filter — a scraped box score with 0 seconds played and no
made shots (parsed minutes = 0, parsed points = 0) is upserted and a
GameLogEntry for it is created. -/
theorem c5_counterexample :
    logKeyCount (1, "2025-26", ⟨2026, 1, 5⟩)
      (rosterBoxIngest 1 "2025-26" ⟨2026, 1, 5⟩
        ⟨"Bench Player", some "LAL", some 0, some 0, some 0, some 0,
         some 0, some 0, some 0, some 0, some 0⟩ []) = 1
  ∧ pyRound ((orZero (some 0) : ℚ) / 60) = 0
  ∧ calculate_points ⟨"Bench Player", some "LAL", some 0, some 0, some 0, some 0,
      some 0, some 0, some 0, some 0, some 0⟩ = 0 := by
  refine ⟨rfl, ?_, rfl⟩
  have h0 : ((orZero (some 0) : ℚ) / 60) = 0 := by norm_num [orZero]
  rw [h0]
  norm_num [pyRound]

/-- C5 amended: on the Basketball-Reference box-score scraping paths
(fetch_bref_yesterdays_games.py, fetch_bref_all_stats.py) a row whose
parsed minutes and parsed points are both zero is dropped before it can
reach the store; the fetch_bref_rosters_and_logs.py and nba_api ingestion
paths apply no such filter. -/
theorem c5_amended_bref_drop (row : BrefBasicRow)
    (hmin : parse_minutes row.mp = 0) (hpts : parse_int row.pts = 0) :
    brefRowToStat row = none := by
  unfold brefRowToStat
  by_cases hskip : isSkippedName row.name
  · rw [if_pos hskip]
  · rw [if_neg hskip]
    simp [hmin, hpts]

/-- C5 witness: the drop theorem at a concrete DNP row (minutes and points
cells both missing, parsing to 0). -/
theorem c5_witness :
    parse_minutes (⟨"Bench Player", none, none, none, none, none, none⟩ : BrefBasicRow).mp = 0
  ∧ parse_int (⟨"Bench Player", none, none, none, none, none, none⟩ : BrefBasicRow).pts = 0
  ∧ brefRowToStat ⟨"Bench Player", none, none, none, none, none, none⟩ = none :=
  ⟨rfl, rfl, c5_amended_bref_drop _ rfl rfl⟩

/-! Section: C6: unmatched rows -/

/-- C6: in the fetch_all_players_advanced_box_scores.py main loop, a row
whose game date fails every parser and whose source game id is absent,
blank, or matches no known game is counted unmatched and performs no
store write: the advanced_box_scores table is left unchanged. -/
theorem c6_unmatched_no_write (pdTs : PyStr → Option PDate)
    (dateLookup : List (PDate × Nat)) (gameIdLookup : List (PyStr × Nat))
    (existing : List Nat) (row : ApiLogRow) (stats : ApiAdvStats)
    (db : List (Nat × ApiAdvStats))
    (hdate : parse_game_date pdTs row.raw_date = none)
    (hgid : ∀ gs, row.game_id = some gs →
        pyStrip gs = [] ∨ assocFind (pyStrip gs) gameIdLookup = none) :
    processAdvRow pdTs dateLookup gameIdLookup existing row = .unmatched
  ∧ applyAdvOutcome stats db (processAdvRow pdTs dateLookup gameIdLookup existing row)
      = db := by
  have hmatch : matchAdvRow pdTs dateLookup gameIdLookup row = none := by
    unfold matchAdvRow
    rw [hdate]
    simp only
    cases hg : row.game_id with
    | none => rfl
    | some gs =>
      rcases hgid gs hg with h | h
      · simp [h]
      · have hne : (pyStrip gs).isEmpty = false ∨ (pyStrip gs).isEmpty = true :=
          Or.symm (Bool.eq_false_or_eq_true _)
        rcases hne with he | he
        · simp [he, h]
        · simp [he]
  have hout : processAdvRow pdTs dateLookup gameIdLookup existing row = .unmatched := by
    unfold processAdvRow
    rw [hmatch]
  exact ⟨hout, by rw [hout]; rfl⟩

/-- C6 witness: a concrete row with an unparseable date and an unknown
game id over empty lookups (the external pandas parser rejecting
everything). -/
theorem c6_witness :
    parse_game_date (fun _ => none)
        (⟨some "garbage".toList, some "0022500999".toList⟩ : ApiLogRow).raw_date = none
  ∧ (∀ gs, (⟨some "garbage".toList, some "0022500999".toList⟩ : ApiLogRow).game_id = some gs →
        pyStrip gs = [] ∨ assocFind (pyStrip gs) ([] : List (PyStr × Nat)) = none)
  ∧ (processAdvRow (fun _ => none) [] [] []
        ⟨some "garbage".toList, some "0022500999".toList⟩ = .unmatched
    ∧ applyAdvOutcome ⟨none, none, none, none, none, none, none, none⟩ []
        (processAdvRow (fun _ => none) [] [] []
          ⟨some "garbage".toList, some "0022500999".toList⟩) = []) :=
  ⟨by decide, fun gs h => by cases h; right; rfl,
   c6_unmatched_no_write (fun _ => none) [] [] [] _ _ []
     (by decide) (fun gs h => by cases h; right; rfl)⟩

/-! Section: String-parsing lemmas (C7, C8) -/

theorem isDigit_not_space {c : Char} (h : c.isDigit = true) : isSpaceCh c = false := by
  unfold isSpaceCh
  by_contra hc
  rw [Bool.not_eq_false, Bool.or_eq_true, Bool.or_eq_true, Bool.or_eq_true] at hc
  rcases hc with ((h1 | h1) | h1) | h1 <;>
    · rw [beq_iff_eq] at h1
      subst h1
      exact absurd h (by decide)

theorem digit_ne_char {c x : Char} (h : c.isDigit = true) (hx : x.isDigit = false) :
    c ≠ x := by
  intro e
  rw [e, hx] at h
  exact Bool.false_ne_true h

theorem dropWhile_space_eq_self {l : PyStr} (h : ∀ c ∈ l, isSpaceCh c = false) :
    l.dropWhile isSpaceCh = l := by
  cases l with
  | nil => rfl
  | cons c t =>
    rw [List.dropWhile_cons, h c (List.mem_cons_self c t)]
    simp

theorem pyStrip_eq_self {l : PyStr} (h : ∀ c ∈ l, isSpaceCh c = false) :
    pyStrip l = l := by
  unfold pyStrip
  rw [dropWhile_space_eq_self h, dropWhile_space_eq_self, List.reverse_reverse]
  intro c hc
  exact h c (List.mem_reverse.mp hc)

theorem containsChar_of_all_ne {sep : Char} :
    ∀ {l : PyStr}, (∀ c ∈ l, c ≠ sep) → containsChar sep l = false
  | [], _ => rfl
  | c :: t, h => by
    unfold containsChar
    rw [beq_eq_false_iff_ne.mpr (h c (List.mem_cons_self c t)),
        containsChar_of_all_ne (fun x hx => h x (List.mem_cons_of_mem c hx))]
    rfl

theorem containsChar_append_cons (sep : Char) :
    ∀ (a b : PyStr), containsChar sep (a ++ sep :: b) = true
  | [], b => by simp [containsChar]
  | c :: a, b => by
    unfold containsChar
    rw [List.cons_append]
    show (c == sep || containsChar sep (a ++ sep :: b)) = true
    rw [containsChar_append_cons sep a b, Bool.or_true]

theorem splitOnChar_of_all_ne {sep : Char} :
    ∀ {l : PyStr}, (∀ c ∈ l, c ≠ sep) → splitOnChar sep l = [l]
  | [], _ => rfl
  | c :: t, h => by
    rw [splitOnChar, splitOnChar_of_all_ne (fun x hx => h x (List.mem_cons_of_mem c hx)),
        beq_eq_false_iff_ne.mpr (h c (List.mem_cons_self c t))]
    simp

theorem splitOnChar_append (sep : Char) :
    ∀ {a : PyStr} (b : PyStr), (∀ c ∈ a, c ≠ sep) →
      splitOnChar sep (a ++ sep :: b) = a :: splitOnChar sep b
  | [], b, _ => by
    show splitOnChar sep (sep :: b) = [] :: splitOnChar sep b
    rw [splitOnChar, beq_self_eq_true]
    simp
  | c :: a, b, h => by
    show splitOnChar sep (c :: (a ++ sep :: b)) = (c :: a) :: splitOnChar sep b
    rw [splitOnChar, splitOnChar_append sep b (fun x hx => h x (List.mem_cons_of_mem c hx)),
        beq_eq_false_iff_ne.mpr (h c (List.mem_cons_self c a))]
    simp

theorem allDigits_mem {l : PyStr} (h : allDigits l = true) :
    ∀ c ∈ l, c.isDigit = true := by
  unfold allDigits at h
  rw [Bool.and_eq_true, List.all_eq_true] at h
  exact h.2

theorem allDigits_ne_nil {l : PyStr} (h : allDigits l = true) : l ≠ [] := by
  intro e
  subst e
  exact absurd h (by decide)

theorem allDigits_no_space {l : PyStr} (h : allDigits l = true) :
    ∀ c ∈ l, isSpaceCh c = false :=
  fun c hc => isDigit_not_space (allDigits_mem h c hc)

theorem pyIntParse_digits {ds : PyStr} (h : allDigits ds = true) :
    pyIntParse ds = some (digitsVal ds : Int) := by
  cases ds with
  | nil => exact absurd rfl (allDigits_ne_nil h)
  | cons c t =>
    have hc : c.isDigit = true := allDigits_mem h c (List.mem_cons_self c t)
    have hminus : ¬(c = '-') := digit_ne_char hc (by decide)
    have hplus : ¬(c = '+') := digit_ne_char hc (by decide)
    simp [pyIntParse, pyStrip_eq_self (allDigits_no_space h), hminus, hplus, h]

theorem pyFloatCore_digits {ds : PyStr} (h : allDigits ds = true) :
    pyFloatCore ds = some (digitsVal ds : ℚ) := by
  have hsplit : splitOnChar '.' ds = [ds] :=
    splitOnChar_of_all_ne (fun c hc => digit_ne_char (allDigits_mem h c hc) (by decide))
  simp [pyFloatCore, hsplit, h]

theorem pyFloatCore_point {a b : PyStr} (ha : ∀ c ∈ a, c.isDigit = true)
    (hb : ∀ c ∈ b, c.isDigit = true) (hne : a ≠ [] ∨ b ≠ []) :
    pyFloatCore (a ++ '.' :: b)
      = some ((digitsVal a : ℚ) + (digitsVal b : ℚ) / 10 ^ b.length) := by
  have hsplit : splitOnChar '.' (a ++ '.' :: b) = a :: splitOnChar '.' b :=
    splitOnChar_append '.' b (fun c hc => digit_ne_char (ha c hc) (by decide))
  have hsplitb : splitOnChar '.' b = [b] :=
    splitOnChar_of_all_ne (fun c hc => digit_ne_char (hb c hc) (by decide))
  have h1 : a.all Char.isDigit = true := List.all_eq_true.mpr ha
  have h2 : b.all Char.isDigit = true := List.all_eq_true.mpr hb
  have h3 : (a.isEmpty && b.isEmpty) = false := by
    rcases hne with h | h <;> simp [List.isEmpty_iff, h]
  simp [pyFloatCore, hsplit, hsplitb, h1, h2, h3]

theorem pyFloatParse_digits {ds : PyStr} (h : allDigits ds = true) :
    pyFloatParse ds = some (digitsVal ds : ℚ) := by
  cases ds with
  | nil => exact absurd rfl (allDigits_ne_nil h)
  | cons c t =>
    have hc : c.isDigit = true := allDigits_mem h c (List.mem_cons_self c t)
    have hminus : ¬(c = '-') := digit_ne_char hc (by decide)
    have hplus : ¬(c = '+') := digit_ne_char hc (by decide)
    simp [pyFloatParse, pyStrip_eq_self (allDigits_no_space h), hminus, hplus,
          pyFloatCore_digits h]

theorem pyFloatParse_point {a b : PyStr} (ha : allDigits a = true)
    (hb : ∀ c ∈ b, c.isDigit = true) :
    pyFloatParse (a ++ '.' :: b)
      = some ((digitsVal a : ℚ) + (digitsVal b : ℚ) / 10 ^ b.length) := by
  have hmem : ∀ c ∈ a ++ '.' :: b, isSpaceCh c = false := by
    intro c hc
    rcases List.mem_append.mp hc with h | h
    · exact isDigit_not_space (allDigits_mem ha c h)
    · rcases List.mem_cons.mp h with h | h
      · subst h; decide
      · exact isDigit_not_space (hb c h)
  cases a with
  | nil => exact absurd rfl (allDigits_ne_nil ha)
  | cons c t =>
    have hc : c.isDigit = true := allDigits_mem ha c (List.mem_cons_self c t)
    have hminus : ¬(c = '-') := digit_ne_char hc (by decide)
    have hplus : ¬(c = '+') := digit_ne_char hc (by decide)
    have hcore := pyFloatCore_point (a := c :: t) (allDigits_mem ha) hb (Or.inl (by simp))
    simp only [pyFloatParse]
    rw [pyStrip_eq_self hmem]
    simp [hminus, hplus]
    exact hcore

theorem parse_minutes_clock (m sec : PyStr) (hm : allDigits m = true)
    (hs : allDigits sec = true) :
    parse_minutes (some (m ++ ':' :: sec))
      = (digitsVal m : ℚ) + (digitsVal sec : ℚ) / 60 := by
  have hmem : ∀ c ∈ m ++ ':' :: sec, isSpaceCh c = false := by
    intro c hc
    rcases List.mem_append.mp hc with h | h
    · exact isDigit_not_space (allDigits_mem hm c h)
    · rcases List.mem_cons.mp h with h | h
      · subst h; decide
      · exact isDigit_not_space (allDigits_mem hs c h)
  have hsplit : splitOnChar ':' (m ++ ':' :: sec) = m :: splitOnChar ':' sec :=
    splitOnChar_append ':' sec
      (fun c hc => digit_ne_char (allDigits_mem hm c hc) (by decide))
  have hsplits : splitOnChar ':' sec = [sec] :=
    splitOnChar_of_all_ne
      (fun c hc => digit_ne_char (allDigits_mem hs c hc) (by decide))
  simp only [parse_minutes]
  rw [pyStrip_eq_self hmem, containsChar_append_cons ':' m sec]
  simp only [if_true, hsplit, hsplits]
  simp [pyIntParse_digits hm, pyIntParse_digits hs]

theorem parse_minutes_numeral (ds : PyStr) (hd : allDigits ds = true) :
    parse_minutes (some ds) = (digitsVal ds : ℚ) := by
  have hnc : containsChar ':' ds = false :=
    containsChar_of_all_ne
      (fun c hc => digit_ne_char (allDigits_mem hd c hc) (by decide))
  simp only [parse_minutes]
  rw [pyStrip_eq_self (allDigits_no_space hd), hnc]
  simp [pyFloatParse_digits hd]

theorem parse_minutes_dec (a b : PyStr) (ha : allDigits a = true)
    (hb : allDigits b = true) :
    parse_minutes (some (a ++ '.' :: b))
      = (digitsVal a : ℚ) + (digitsVal b : ℚ) / 10 ^ b.length := by
  have hmem : ∀ c ∈ a ++ '.' :: b, isSpaceCh c = false := by
    intro c hc
    rcases List.mem_append.mp hc with h | h
    · exact isDigit_not_space (allDigits_mem ha c h)
    · rcases List.mem_cons.mp h with h | h
      · subst h; decide
      · exact isDigit_not_space (allDigits_mem hb c h)
  have hnc : containsChar ':' (a ++ '.' :: b) = false := by
    apply containsChar_of_all_ne
    intro c hc
    rcases List.mem_append.mp hc with h | h
    · exact digit_ne_char (allDigits_mem ha c h) (by decide)
    · rcases List.mem_cons.mp h with h | h
      · subst h; decide
      · exact digit_ne_char (allDigits_mem hb c h) (by decide)
  simp only [parse_minutes]
  rw [pyStrip_eq_self hmem, hnc]
  simp [pyFloatParse_point ha (allDigits_mem hb)]

theorem parse_minutes_malformed (g : PyStr)
    (h1 : containsChar ':' (pyStrip g) = false)
    (h2 : pyFloatParse (pyStrip g) = none) :
    parse_minutes (some g) = 0 := by
  simp only [parse_minutes]
  rw [h1, h2]
  simp

/-- C7 counterexample: for blank input the duration parser returns the
NUMBER 0 — not an absent marker (and in particular it does return zero),
contradicting the claim's "returns the absent sentinel, not a number (and
in particular not zero)".  `parse_minutes` is total into ℚ with 0 as its
malformed-input result. -/
theorem c7_counterexample :
    parse_minutes (some [' ']) = 0
  ∧ parse_minutes (some "garbage".toList) = 0
  ∧ parse_minutes none = 0 := by
  refine ⟨by decide, by decide, rfl⟩

/-- C7 amended: for "MM:SS" strings the parser returns MM + SS/60; a bare
decimal numeral (integral or with a fractional part) is returned
unchanged; blank or unparseable input — including None/NaN — returns 0
(the zero sentinel), not an absent marker. -/
theorem c7_amended_parse_minutes :
    (∀ m sec : PyStr, allDigits m = true → allDigits sec = true →
       parse_minutes (some (m ++ ':' :: sec))
         = (digitsVal m : ℚ) + (digitsVal sec : ℚ) / 60)
  ∧ (∀ ds : PyStr, allDigits ds = true →
       parse_minutes (some ds) = (digitsVal ds : ℚ))
  ∧ (∀ a b : PyStr, allDigits a = true → allDigits b = true →
       parse_minutes (some (a ++ '.' :: b))
         = (digitsVal a : ℚ) + (digitsVal b : ℚ) / 10 ^ b.length)
  ∧ parse_minutes none = 0
  ∧ (∀ g : PyStr, containsChar ':' (pyStrip g) = false →
       pyFloatParse (pyStrip g) = none → parse_minutes (some g) = 0) :=
  ⟨parse_minutes_clock, parse_minutes_numeral, parse_minutes_dec, rfl,
   parse_minutes_malformed⟩

/-- C7 witness: the amended theorem's clauses at "35:30", "12", "12.5" and
"abc". -/
theorem c7_witness :
    (allDigits "35".toList = true ∧ allDigits "30".toList = true
      ∧ parse_minutes (some ("35".toList ++ ':' :: "30".toList))
          = (digitsVal "35".toList : ℚ) + (digitsVal "30".toList : ℚ) / 60)
  ∧ (allDigits "12".toList = true
      ∧ parse_minutes (some "12".toList) = (digitsVal "12".toList : ℚ))
  ∧ (allDigits "12".toList = true ∧ allDigits "5".toList = true
      ∧ parse_minutes (some ("12".toList ++ '.' :: "5".toList))
          = (digitsVal "12".toList : ℚ)
              + (digitsVal "5".toList : ℚ) / 10 ^ ("5".toList).length)
  ∧ (containsChar ':' (pyStrip "abc".toList) = false
      ∧ pyFloatParse (pyStrip "abc".toList) = none
      ∧ parse_minutes (some "abc".toList) = 0) :=
  ⟨⟨by decide, by decide,
    c7_amended_parse_minutes.1 "35".toList "30".toList (by decide) (by decide)⟩,
   ⟨by decide, c7_amended_parse_minutes.2.1 "12".toList (by decide)⟩,
   ⟨by decide, by decide,
    c7_amended_parse_minutes.2.2.1 "12".toList "5".toList (by decide) (by decide)⟩,
   ⟨by decide, by decide,
    c7_amended_parse_minutes.2.2.2.2 "abc".toList (by decide) (by decide)⟩⟩

theorem parse_pct_dotted {d : PyStr} (hd : allDigits d = true) :
    parse_pct (some ('.' :: d)) = (digitsVal d : ℚ) / 10 ^ d.length := by
  have hmem : ∀ c ∈ '.' :: d, isSpaceCh c = false := by
    intro c hc
    rcases List.mem_cons.mp hc with h | h
    · subst h; decide
    · exact isDigit_not_space (allDigits_mem hd c h)
  have hpf : pyFloatParse ('0' :: '.' :: d)
      = some ((digitsVal ['0'] : ℚ) + (digitsVal d : ℚ) / 10 ^ d.length) :=
    pyFloatParse_point (a := ['0']) (by decide) (allDigits_mem hd)
  simp only [parse_pct]
  rw [pyStrip_eq_self hmem]
  simp [hpf]
  norm_num [show digitsVal ['0'] = 0 from rfl]

theorem pyRound_intCast (n : ℤ) : pyRound (n : ℚ) = n := by
  unfold pyRound
  rw [Int.floor_intCast]
  norm_num

/-- C8: for a percentage string of the decimal-fraction encoding (a ".")
followed by one to three digits — the shape Basketball Reference emits —
multiplying `parse_pct`'s value by 100 (the cited call sites
`parse_pct(row.get('TS%')) * 100`) yields the whole-number convention,
already exact to one decimal place — `round(x, 1)` (the nba_api path's
`get_pct_as_whole`) leaves it unchanged — and ".567" yields exactly
56.7. -/
theorem c8_decimal_fraction_pct (d : PyStr) (hd : allDigits d = true)
    (hlen : d.length ≤ 3) :
    parse_pct (some ('.' :: d)) * 100 = (digitsVal d : ℚ) * 100 / 10 ^ d.length
  ∧ pyRound1 (parse_pct (some ('.' :: d)) * 100) = parse_pct (some ('.' :: d)) * 100
  ∧ get_pct_as_whole [("TS_PCT", some (parse_pct (some ('.' :: d))))] ["TS_PCT"]
      = some (parse_pct (some ('.' :: d)) * 100)
  ∧ parse_pct (some ".567".toList) * 100 = 567 / 10 := by
  have hp := parse_pct_dotted hd
  have h1 : parse_pct (some ('.' :: d)) * 100
      = (digitsVal d : ℚ) * 100 / 10 ^ d.length := by
    rw [hp]; ring
  have h10 : ((10 : ℚ) ^ d.length) ≠ 0 := by positivity
  have hlen3 : 3 - d.length + d.length = 3 := by omega
  have hn : (parse_pct (some ('.' :: d)) * 100) * 10
      = (((digitsVal d : ℤ) * 10 ^ (3 - d.length) : ℤ) : ℚ) := by
    rw [h1]
    push_cast
    rw [div_mul_eq_mul_div, div_eq_iff h10]
    calc (digitsVal d : ℚ) * 100 * 10 = (digitsVal d : ℚ) * 10 ^ 3 := by ring
      _ = (digitsVal d : ℚ) * (10 ^ (3 - d.length) * 10 ^ d.length) := by
          rw [← pow_add, hlen3]
      _ = (digitsVal d : ℚ) * 10 ^ (3 - d.length) * 10 ^ d.length := by ring
  have h2 : pyRound1 (parse_pct (some ('.' :: d)) * 100)
      = parse_pct (some ('.' :: d)) * 100 := by
    unfold pyRound1
    rw [hn, pyRound_intCast]
    rw [← hn]
    ring
  refine ⟨h1, h2, ?_, ?_⟩
  · simp [get_pct_as_whole, get_value, assocFind]
    exact h2
  · have h567 := parse_pct_dotted (d := "567".toList) (by decide)
    rw [show ".567".toList = '.' :: "567".toList from rfl, h567,
        show digitsVal "567".toList = 567 from rfl,
        show ("567".toList).length = 3 from rfl]
    norm_num

/-- C8 witness: the theorem at the three-digit fraction "567". -/
theorem c8_witness :
    allDigits "567".toList = true
  ∧ ("567".toList).length ≤ 3
  ∧ (parse_pct (some ('.' :: "567".toList)) * 100
        = (digitsVal "567".toList : ℚ) * 100 / 10 ^ ("567".toList).length
    ∧ pyRound1 (parse_pct (some ('.' :: "567".toList)) * 100)
        = parse_pct (some ('.' :: "567".toList)) * 100
    ∧ get_pct_as_whole [("TS_PCT", some (parse_pct (some ('.' :: "567".toList))))] ["TS_PCT"]
        = some (parse_pct (some ('.' :: "567".toList)) * 100)
    ∧ parse_pct (some ".567".toList) * 100 = 567 / 10) :=
  ⟨by decide, by decide, c8_decimal_fraction_pct "567".toList (by decide) (by decide)⟩

/-! Section: C9: retrying fetcher -/

/-- C9 counterexample: with MAX_RETRIES = 3, a shape-mismatch on the first
attempt followed by a failing fallback call propagates immediately from
attempt 1 — no sleep is performed and the bounded retry loop (which would
only propagate at attempt 3) never handles the failure. -/
theorem c9_counterexample :
    fetch_team_players_run
        ⟨fun _ => .typeErr, fun _ => .err, fun _ => 0⟩ 3
      = (.propagated 1 true, [])
  ∧ (1 : Nat) < 3 := by
  exact ⟨rfl, by decide⟩

/-- C9 amended: a shape-mismatch (TypeError) failure is retried exactly
once under the fallback argument shape; if that single fallback call
fails, the failure propagates immediately to the caller (no sleep, no
further attempts) — it is NOT handed to the bounded retry loop; any other
primary-shape failure follows the standard loop: sleep
`base_delay * attempt + jitter` and retry, propagating only once
`attempt = max_attempts`. -/
theorem c9_amended_retry_policy (env : FetchEnv) (maxR attempt fuel : Nat)
    (hf : 1 ≤ fuel) :
    (env.primary attempt = .ok →
        fetchGo env maxR attempt fuel = (.success attempt false, []))
  ∧ (env.primary attempt = .typeErr → env.fallback attempt = .ok →
        fetchGo env maxR attempt fuel = (.success attempt true, []))
  ∧ (env.primary attempt = .typeErr → env.fallback attempt ≠ .ok →
        fetchGo env maxR attempt fuel = (.propagated attempt true, []))
  ∧ (env.primary attempt = .err → attempt = maxR →
        fetchGo env maxR attempt fuel = (.propagated attempt false, []))
  ∧ (env.primary attempt = .err → attempt ≠ maxR →
        fetchGo env maxR attempt fuel
          = ((fetchGo env maxR (attempt + 1) (fuel - 1)).1,
             (1000 * attempt + env.jitter attempt)
               :: (fetchGo env maxR (attempt + 1) (fuel - 1)).2)) := by
  obtain ⟨f, rfl⟩ : ∃ f, fuel = f + 1 := ⟨fuel - 1, by omega⟩
  refine ⟨?_, ?_, ?_, ?_, ?_⟩
  · intro h; simp [fetchGo, h]
  · intro h1 h2; simp [fetchGo, h1, h2]
  · intro h1 h2
    cases hfb : env.fallback attempt with
    | ok => exact absurd hfb h2
    | typeErr => simp [fetchGo, h1, hfb]
    | err => simp [fetchGo, h1, hfb]
  · intro h1 h2; subst h2; simp [fetchGo, h1]
  · intro h1 h2; simp [fetchGo, h1, h2]

/-- C9 witness: the amended retry-policy theorem at a concrete
environment (first two attempts transient errors, then success), attempt
1, MAX_RETRIES = 3. -/
theorem c9_witness :
    (1 : Nat) ≤ 3
  ∧ (((⟨fun a => if a < 3 then .err else .ok, fun _ => .ok, fun _ => 7⟩ : FetchEnv).primary 1 = .ok →
        fetchGo ⟨fun a => if a < 3 then .err else .ok, fun _ => .ok, fun _ => 7⟩ 3 1 3
          = (.success 1 false, []))
    ∧ ((⟨fun a => if a < 3 then .err else .ok, fun _ => .ok, fun _ => 7⟩ : FetchEnv).primary 1 = .typeErr →
        (⟨fun a => if a < 3 then .err else .ok, fun _ => .ok, fun _ => 7⟩ : FetchEnv).fallback 1 = .ok →
        fetchGo ⟨fun a => if a < 3 then .err else .ok, fun _ => .ok, fun _ => 7⟩ 3 1 3
          = (.success 1 true, []))
    ∧ ((⟨fun a => if a < 3 then .err else .ok, fun _ => .ok, fun _ => 7⟩ : FetchEnv).primary 1 = .typeErr →
        (⟨fun a => if a < 3 then .err else .ok, fun _ => .ok, fun _ => 7⟩ : FetchEnv).fallback 1 ≠ .ok →
        fetchGo ⟨fun a => if a < 3 then .err else .ok, fun _ => .ok, fun _ => 7⟩ 3 1 3
          = (.propagated 1 true, []))
    ∧ ((⟨fun a => if a < 3 then .err else .ok, fun _ => .ok, fun _ => 7⟩ : FetchEnv).primary 1 = .err →
        (1 : Nat) = 3 →
        fetchGo ⟨fun a => if a < 3 then .err else .ok, fun _ => .ok, fun _ => 7⟩ 3 1 3
          = (.propagated 1 false, []))
    ∧ ((⟨fun a => if a < 3 then .err else .ok, fun _ => .ok, fun _ => 7⟩ : FetchEnv).primary 1 = .err →
        (1 : Nat) ≠ 3 →
        fetchGo ⟨fun a => if a < 3 then .err else .ok, fun _ => .ok, fun _ => 7⟩ 3 1 3
          = ((fetchGo ⟨fun a => if a < 3 then .err else .ok, fun _ => .ok, fun _ => 7⟩ 3 2 (3 - 1)).1,
             (1000 * 1 + (⟨fun a => if a < 3 then .err else .ok, fun _ => .ok, fun _ => 7⟩ : FetchEnv).jitter 1)
               :: (fetchGo ⟨fun a => if a < 3 then .err else .ok, fun _ => .ok, fun _ => 7⟩ 3 2 (3 - 1)).2))) :=
  ⟨by decide,
   c9_amended_retry_policy ⟨fun a => if a < 3 then .err else .ok, fun _ => .ok, fun _ => 7⟩
     3 1 3 (by decide)⟩

/-! Section: C10: season token -/

set_option maxRecDepth 4000 in
theorem year_drop_two (n : Nat) (h1 : 2000 ≤ n) (h2 : n ≤ 2099) :
    (toString n).drop 2 = twoDigitYear n := by
  interval_cases n <;> rfl

/-- C10: the season token is a pure function of the date: a month of
October, November or December maps to the season ending the following
calendar year, every other month maps to the season ending the same year;
the token is the start year, a dash, and the end year's last two digits
(two-digit form); hence a fall date (month ≥ 10) of year Y and a spring
date (month ≤ 9) of year Y+1 receive the same token; and 2025-10-21 maps
to "2025-26".  Year bounds keep the scripts' `str(year)[2:]` a two-digit
suffix. -/
theorem c10_season_token (d : PDate) (hm1 : 1 ≤ d.month) (hm12 : d.month ≤ 12)
    (hy1 : 2000 ≤ d.year) (hy2 : d.year ≤ 2098) :
    (d.month = 10 ∨ d.month = 11 ∨ d.month = 12 →
       get_season_string d = seasonTokenSpec d.year (d.year + 1))
  ∧ (d.month ≤ 9 → get_season_string d = seasonTokenSpec (d.year - 1) d.year)
  ∧ (∀ d2 : PDate, d2.year = d.year + 1 → d2.month ≤ 9 → 10 ≤ d.month →
       get_season_string d2 = get_season_string d)
  ∧ get_season_string ⟨2025, 10, 21⟩ = "2025-26" := by
  have hoct : ∀ e : PDate, 10 ≤ e.month → 2000 ≤ e.year → e.year ≤ 2098 →
      get_season_string e = seasonTokenSpec e.year (e.year + 1) := by
    intro e he hy1e hy2e
    have h : get_season_string e
        = toString (e.year + 1 - 1) ++ "-" ++ (toString (e.year + 1)).drop 2 := by
      unfold get_season_string
      rw [if_pos he]
    rw [h, Nat.add_sub_cancel, year_drop_two (e.year + 1) (by omega) (by omega)]
    rfl
  have hspring : ∀ e : PDate, e.month ≤ 9 → 2000 ≤ e.year → e.year ≤ 2099 →
      get_season_string e = seasonTokenSpec (e.year - 1) e.year := by
    intro e he hy1e hy2e
    have hnot : ¬(e.month ≥ 10) := by omega
    have h : get_season_string e
        = toString (e.year - 1) ++ "-" ++ (toString e.year).drop 2 := by
      unfold get_season_string
      rw [if_neg hnot]
    rw [h, year_drop_two e.year (by omega) (by omega)]
    rfl
  refine ⟨?_, ?_, ?_, rfl⟩
  · intro h
    exact hoct d (by omega) hy1 hy2
  · intro h
    exact hspring d h (by omega) (by omega)
  · intro d2 hyr hm2 hm10
    rw [hspring d2 hm2 (by omega) (by omega), hoct d hm10 hy1 hy2, hyr,
        Nat.add_sub_cancel]

/-- C10 witness: the season-token theorem at 2025-10-21 (and the matching
spring date 2026-03-01). -/
theorem c10_witness :
    1 ≤ (⟨2025, 10, 21⟩ : PDate).month
  ∧ (⟨2025, 10, 21⟩ : PDate).month ≤ 12
  ∧ 2000 ≤ (⟨2025, 10, 21⟩ : PDate).year
  ∧ (⟨2025, 10, 21⟩ : PDate).year ≤ 2098
  ∧ (((⟨2025, 10, 21⟩ : PDate).month = 10 ∨ (⟨2025, 10, 21⟩ : PDate).month = 11
        ∨ (⟨2025, 10, 21⟩ : PDate).month = 12 →
       get_season_string ⟨2025, 10, 21⟩
         = seasonTokenSpec (⟨2025, 10, 21⟩ : PDate).year ((⟨2025, 10, 21⟩ : PDate).year + 1))
    ∧ ((⟨2025, 10, 21⟩ : PDate).month ≤ 9 →
       get_season_string ⟨2025, 10, 21⟩
         = seasonTokenSpec ((⟨2025, 10, 21⟩ : PDate).year - 1) (⟨2025, 10, 21⟩ : PDate).year)
    ∧ (∀ d2 : PDate, d2.year = (⟨2025, 10, 21⟩ : PDate).year + 1 → d2.month ≤ 9 →
         10 ≤ (⟨2025, 10, 21⟩ : PDate).month →
         get_season_string d2 = get_season_string ⟨2025, 10, 21⟩)
    ∧ get_season_string ⟨2025, 10, 21⟩ = "2025-26") :=
  ⟨by decide, by decide, by decide, by decide,
   c10_season_token ⟨2025, 10, 21⟩ (by decide) (by decide) (by decide) (by decide)⟩
